import Mathlib

/-!
# luarun: process spawning and pipe management (`dllmain.cpp`)

A shallow embedding of the six Lua-callable functions of `dllmain.cpp`
(`spawn`, `wait`, `terminate`, `write`, `read`, `close`) in both of their
platform variants (`#ifdef _WIN32` / `#else`).

Conventions of the embedding.

* The operating system is an oracle: every value that an OS call hands back
  (the two descriptors of a `pipe`, the pid of `fork`, the status word of
  `waitpid`, ...) is an explicit argument of the embedded function.
* The part of the kernel state the functions change is the `World`: the pipe
  endpoints open in the calling (parent) process and the list of OS calls
  issued so far, oldest first.
* A Lua C function ends with `return n`, leaving `n` values for the caller;
  that is `Outcome.ret` with the list of those values.
* C integer types: `int`, `pid_t` are 32-bit two's complement, `DWORD` is
  32-bit unsigned, `size_t` is 64-bit unsigned, `lua_Integer` and `ssize_t`
  are 64-bit two's complement.  Values are `Int`/`Nat` with explicit wrapping.
* C `char` is `Char`; a Lua string is a `String`.
-/

namespace Luarun

/-! ## Machine integers -/

/-- Largest value of the C type `int`. -/
def INT_MAX : Int := 2147483647

/-- Conversion of an integer value to the C type `int` (also `pid_t`):
reduction modulo `2^32` into `[-2^31, 2^31)`. -/
def toInt32 (x : Int) : Int := (x + 2147483648) % 4294967296 - 2147483648

/-- Conversion of an integer value to `DWORD` / `unsigned int`. -/
def toDWORD (x : Int) : Nat := (x % 4294967296).toNat

/-- Conversion of an integer value to `size_t`. -/
def toSizeT (x : Int) : Nat := (x % 18446744073709551616).toNat

/-! ## Lua values and outcomes -/

/-- The Lua values the library pushes.  A table is the list of its
string-keyed integer fields, in the order in which the keys were first set. -/
inductive LuaValue where
  | nil
  | boolean (b : Bool)
  | integer (n : Int)
  | string (s : String)
  | table (fields : List (String × Int))
  deriving DecidableEq, Repr

/-- How a call of one of the C functions ends. -/
inductive Outcome where
  /-- The function executed `return n`; `vals` are the `n` values pushed. -/
  | ret (vals : List LuaValue)
  /-- Control does not come back to the Lua caller: the process image is
  replaced (`execl`) or exits, or the thread is suspended in a blocking OS
  call that the kernel has not completed. -/
  | noReturn
  /-- The C program has undefined behaviour (signed overflow, access outside
  the allocated buffer). -/
  | undefined
  deriving DecidableEq, Repr

/-- The C call `lua_setfield(L, -2, k)` on a table under construction, with the
integer `v` on top of the stack. -/
def lua_setfield (t : List (String × Int)) (k : String) (v : Int) : List (String × Int) :=
  if t.any (fun p => p.1 == k) then t.map (fun p => if p.1 == k then (k, v) else p)
  else t ++ [(k, v)]

/-- The field names of a Lua value (empty when it is not a table). -/
def fieldNames : LuaValue → List String
  | .table fields => fields.map Prod.fst
  | _ => []

/-- Reading `t[k]` from a Lua value. -/
def getField : LuaValue → String → Option Int
  | .table fields, k => (fields.find? (fun p => p.1 == k)).map Prod.snd
  | _, _ => none

/-! ## The operating system seen from the parent process -/

/-- OS calls issued by the calling process. -/
inductive OsCall where
  | pipe
  | fork
  | close (fd : Int)
  | waitpid (pid : Int)
  | kill (pid : Int) (sig : Nat)
  | write (fd : Int) (len : Nat)
  | read (fd : Int) (count : Nat)
  | malloc (size : Nat)
  | free
  | CreatePipe
  | CreateProcessA (command : String)
  | CloseHandle (h : Int)
  | WaitForSingleObject (h : Int)
  | GetExitCodeProcess (h : Int)
  | TerminateProcess (h : Int) (code : Nat)
  | WriteFile (h : Int) (len : Nat)
  | PeekNamedPipe (h : Int)
  | ReadFile (h : Int) (count : Nat)
  deriving DecidableEq, Repr

/-- The state the library changes: the pipe endpoints (descriptors or handles)
open in the calling process, and the OS calls it has issued, oldest first. -/
structure World where
  openEnds : List Int
  trace : List OsCall
  deriving DecidableEq, Repr

/-- Record an OS call in the trace. -/
def World.log (w : World) (c : OsCall) : World := ⟨w.openEnds, w.trace ++ [c]⟩

/-- POSIX `pipe(fds)`: on success (`some (fds[0], fds[1])`) both ends become
open; on failure (`none`, return value `-1`) nothing is created. -/
def os_pipe (w : World) (r : Option (Int × Int)) : World :=
  match r with
  | some (rd, wr) => ⟨wr :: rd :: w.openEnds, w.trace ++ [OsCall.pipe]⟩
  | none => w.log OsCall.pipe

/-- POSIX `close(fd)`: afterwards `fd` is not open. -/
def os_close (w : World) (fd : Int) : World :=
  ⟨w.openEnds.filter (fun e => e ≠ fd), w.trace ++ [OsCall.close fd]⟩

/-- Windows `CreatePipe(&rd, &wr, &sa, 0)`: on success both handles become
open; on failure nothing is created. -/
def os_CreatePipe (w : World) (r : Option (Int × Int)) : World :=
  match r with
  | some (rd, wr) => ⟨wr :: rd :: w.openEnds, w.trace ++ [OsCall.CreatePipe]⟩
  | none => w.log OsCall.CreatePipe

/-- Windows `CloseHandle(h)`: afterwards `h` is not open. -/
def os_CloseHandle (w : World) (h : Int) : World :=
  ⟨w.openEnds.filter (fun e => e ≠ h), w.trace ++ [OsCall.CloseHandle h]⟩

/-- The descriptors closed by the calls of a trace, in order. -/
def closedBy : List OsCall → List Int
  | [] => []
  | OsCall.close fd :: t => fd :: closedBy t
  | OsCall.CloseHandle h :: t => h :: closedBy t
  | _ :: t => closedBy t

/-! ## spawn -/

/-- What the OS answers during the POSIX `l_spawn_process`: the result of each
`pipe` call (`none` is `-1`) and the return value of `fork`. -/
structure PosixSpawnOs where
  pipe1 : Option (Int × Int)
  pipe2 : Option (Int × Int)
  pipe3 : Option (Int × Int)
  forkRet : Int
  deriving DecidableEq, Repr

/-- The pair pushed when a pipe cannot be created (POSIX). -/
def failPipes : Outcome :=
  Outcome.ret [LuaValue.nil, LuaValue.string "Failed to create pipes"]

/-- The pair pushed when `fork` fails (POSIX). -/
def failFork : Outcome :=
  Outcome.ret [LuaValue.nil, LuaValue.string "Failed to fork process"]

/-- The pair pushed when `CreateProcessA` fails (Windows). -/
def failCreateProcess : Outcome :=
  Outcome.ret [LuaValue.nil, LuaValue.string "Failed to create process"]

/-- The table built by the POSIX `l_spawn_process` on success. -/
def posixRecord (pid stdin_w stdout_r stderr_r : Int) : LuaValue :=
  LuaValue.table
    (lua_setfield (lua_setfield (lua_setfield (lua_setfield [] "pid" pid)
      "stdin" stdin_w) "stdout" stdout_r) "stderr" stderr_r)

/-- The table built by the Windows `l_spawn_process` on success. -/
def winRecord (hProcess stdin_w stdout_r stderr_r : Int) : LuaValue :=
  LuaValue.table
    (lua_setfield (lua_setfield (lua_setfield (lua_setfield [] "handle" hProcess)
      "stdin" stdin_w) "stdout" stdout_r) "stderr" stderr_r)

/-- POSIX `l_spawn_process` (`#else` branch).  The `||` chain stops at the
first failing `pipe`.  When `fork` returns `0` the code runs in the child,
which rewires its own descriptor table and calls `execl`/`exit`: it never
returns to Lua and does not touch the parent's descriptors. -/
def l_spawn_process_posix (_command : String) (o : PosixSpawnOs) (w : World) :
    Outcome × World :=
  let w1 := os_pipe w o.pipe1
  match o.pipe1 with
  | none => (failPipes, w1)
  | some stdin_pipe =>
    let w2 := os_pipe w1 o.pipe2
    match o.pipe2 with
    | none => (failPipes, w2)
    | some stdout_pipe =>
      let w3 := os_pipe w2 o.pipe3
      match o.pipe3 with
      | none => (failPipes, w3)
      | some stderr_pipe =>
        let w4 := w3.log OsCall.fork
        let pid := o.forkRet
        if pid = 0 then
          (Outcome.noReturn, w4)
        else if pid > 0 then
          let w5 := os_close w4 stdin_pipe.1
          let w6 := os_close w5 stdout_pipe.2
          let w7 := os_close w6 stderr_pipe.2
          (Outcome.ret [posixRecord pid stdin_pipe.2 stdout_pipe.1 stderr_pipe.1], w7)
        else
          let w5 := os_close w4 stdin_pipe.1
          let w6 := os_close w5 stdin_pipe.2
          let w7 := os_close w6 stdout_pipe.1
          let w8 := os_close w7 stdout_pipe.2
          let w9 := os_close w8 stderr_pipe.1
          let w10 := os_close w9 stderr_pipe.2
          (failFork, w10)

/-- What the OS answers during the Windows `l_spawn_process`: the result of
each `CreatePipe` (`none` is a zero return), the indeterminate contents of the
handle variables a failed `CreatePipe` leaves unassigned, and the result of
`CreateProcessA` (`some hProcess`, or `none` for a zero return). -/
structure WinSpawnOs where
  pipe1 : Option (Int × Int)
  pipe2 : Option (Int × Int)
  pipe3 : Option (Int × Int)
  uninit1 : Int × Int
  uninit2 : Int × Int
  uninit3 : Int × Int
  process : Option Int
  deriving DecidableEq, Repr

/-- Windows `l_spawn_process` (`#ifdef _WIN32` branch).  The three
`CreatePipe` results are discarded; the handle variables hold what the call
stored, or their indeterminate initial contents when it stored nothing. -/
def l_spawn_process_win (command : String) (o : WinSpawnOs) (w : World) :
    Outcome × World :=
  let w1 := os_CreatePipe w o.pipe1
  let stdin_h := o.pipe1.getD o.uninit1
  let w2 := os_CreatePipe w1 o.pipe2
  let stdout_h := o.pipe2.getD o.uninit2
  let w3 := os_CreatePipe w2 o.pipe3
  let stderr_h := o.pipe3.getD o.uninit3
  let w4 := w3.log (OsCall.CreateProcessA command)
  match o.process with
  | none => (failCreateProcess, w4)
  | some hProcess =>
    let w5 := os_CloseHandle w4 stdin_h.1
    let w6 := os_CloseHandle w5 stdout_h.2
    let w7 := os_CloseHandle w6 stderr_h.2
    (Outcome.ret [winRecord hProcess stdin_h.2 stdout_h.1 stderr_h.1], w7)

/-! ## wait and terminate -/

/-- The macro `WTERMSIG(status)` of `<sys/wait.h>`: `status & 0x7f`. -/
def WTERMSIG (status : Int) : Nat := toDWORD status &&& 0x7f

/-- The macro `WIFEXITED(status)` of `<sys/wait.h>`: `WTERMSIG(status) == 0`. -/
def WIFEXITED (status : Int) : Bool := WTERMSIG status == 0

/-- The macro `WEXITSTATUS(status)` of `<sys/wait.h>`:
`(status & 0xff00) >> 8`. -/
def WEXITSTATUS (status : Int) : Int := ((toDWORD status &&& 0xff00) >>> 8 : Nat)

/-- The status word `waitpid` stores for a child that called `exit(code)`
(`W_EXITCODE(code, 0)` of `<sys/wait.h>`). -/
def statusOfExit (code : Nat) : Int := (((code % 256) <<< 8 : Nat) : Int)

/-- The status word `waitpid` stores for a child killed by signal `sig`
(`1 ≤ sig ≤ 127`), with or without a core dump (bit `0x80`). -/
def statusOfSignal (sig : Nat) (core : Bool) : Int :=
  ((sig ||| (if core then 0x80 else 0) : Nat) : Int)

/-- The signal number `SIGTERM`. -/
def SIGTERM : Nat := 15

/-- POSIX `l_wait_process`.  `status` is the content of the variable `status`
after `waitpid(pid, &status, 0)`; the return value of `waitpid` is discarded. -/
def l_wait_process_posix (handle : Int) (status : Int) (w : World) : Outcome × World :=
  let pid := toInt32 handle
  let w1 := w.log (OsCall.waitpid pid)
  if WIFEXITED status then
    (Outcome.ret [LuaValue.integer (WEXITSTATUS status)], w1)
  else
    (Outcome.ret [LuaValue.integer (-1)], w1)

/-- Windows `l_wait_process`.  `exit_code` is the content of the `DWORD`
variable after `GetExitCodeProcess`; both return values are discarded. -/
def l_wait_process_win (handle : Int) (exit_code : Nat) (w : World) : Outcome × World :=
  let w1 := w.log (OsCall.WaitForSingleObject handle)
  let w2 := w1.log (OsCall.GetExitCodeProcess handle)
  (Outcome.ret [LuaValue.integer (exit_code % 4294967296 : Nat)], w2)

/-- POSIX `l_terminate_process`; `result` is the return value of `kill`. -/
def l_terminate_process_posix (handle : Int) (result : Int) (w : World) : Outcome × World :=
  let pid := toInt32 handle
  (Outcome.ret [LuaValue.boolean (result == 0)], w.log (OsCall.kill pid SIGTERM))

/-- Windows `l_terminate_process`; `accepted` is the (discarded) return value
of `TerminateProcess`. -/
def l_terminate_process_win (handle : Int) (_accepted : Bool) (w : World) : Outcome × World :=
  (Outcome.ret [LuaValue.boolean true], w.log (OsCall.TerminateProcess handle 1))

/-! ## write and close -/

/-- POSIX branch of `l_write_to_process`; `written` is the (discarded) return
value of `write`: the number of bytes accepted, or `-1`. -/
def l_write_to_process_posix (handle : Int) (data : String) (_written : Int) (w : World) :
    Outcome × World :=
  (Outcome.ret [LuaValue.boolean true], w.log (OsCall.write (toInt32 handle) data.length))

/-- Windows branch of `l_write_to_process`; `ok` is the (discarded) return
value of `WriteFile` and `bytes_written` the (unused) count it stores. -/
def l_write_to_process_win (handle : Int) (data : String) (_ok : Bool) (_bytes_written : Nat)
    (w : World) : Outcome × World :=
  (Outcome.ret [LuaValue.boolean true],
    w.log (OsCall.WriteFile handle (toDWORD data.length)))

/-- POSIX branch of `l_close_handle`. -/
def l_close_handle_posix (handle : Int) (w : World) : Outcome × World :=
  (Outcome.ret [LuaValue.boolean true], os_close w (toInt32 handle))

/-- Windows branch of `l_close_handle`. -/
def l_close_handle_win (handle : Int) (w : World) : Outcome × World :=
  (Outcome.ret [LuaValue.boolean true], os_CloseHandle w handle)

/-! ## read -/

/-- The value of `max_bytes`: `(int)luaL_optinteger(L, 2, 4096)`. -/
def max_bytes_arg (arg2 : Option Int) : Int := toInt32 (arg2.getD 4096)

/-- The argument of `malloc`: `max_bytes + 1` is evaluated in `int` (`none`
when that addition overflows) and then converted to `size_t`. -/
def scratchSize (max_bytes : Int) : Option Nat :=
  if max_bytes + 1 > INT_MAX then none else some (toSizeT (max_bytes + 1))

/-- The count the POSIX branch passes to `read`: `max_bytes` converted to
`size_t`. -/
def posixReadCount (max_bytes : Int) : Nat := toSizeT max_bytes

/-- The count the Windows branch passes to `ReadFile`:
`if (available > max_bytes) available = max_bytes;` where the comparison and
the assignment convert `max_bytes` to `DWORD`. -/
def winReadCount (available : Nat) (max_bytes : Int) : Nat :=
  if available > toDWORD max_bytes then toDWORD max_bytes else available

/-- The pair pushed when `malloc` returns `NULL`. -/
def allocFailed : Outcome :=
  Outcome.ret [LuaValue.nil, LuaValue.string "Memory allocation failed"]

/-- What a blocking POSIX descriptor holds when `read` is called. -/
inductive PipeState where
  /-- The call fails (bad descriptor, I/O error): `read` returns `-1`. -/
  | failing
  /-- The bytes the kernel can hand over now, and whether some process still
  holds the write end. -/
  | buffered (data : List Char) (writerOpen : Bool)
  deriving DecidableEq, Repr

/-- Largest value of `ssize_t`, the return type of `read`. -/
def SSIZE_MAX : Nat := 9223372036854775807

/-- POSIX `read(fd, buf, count)` on a blocking descriptor: `none` when the
call blocks (nothing buffered, a writer still attached), else the return
value and the bytes stored at the start of `buf`.  A count above `SSIZE_MAX`
is rejected by the kernel with `-1` and nothing is stored. -/
def os_read (st : PipeState) (count : Nat) : Option (Int × List Char) :=
  match st with
  | PipeState.failing => some (-1, [])
  | PipeState.buffered data writerOpen =>
    if count > SSIZE_MAX then some (-1, [])
    else if count = 0 then some (0, [])
    else if data = [] then
      if writerOpen then none else some (0, [])
    else some (((data.take count).length : Nat), data.take count)

/-- The tail of `l_read_from_process` shared by both platforms: terminator
store, result push and `free`. -/
def pushResult (buffer : List Char) (bytes_read : Int) (w : World) : Outcome × World :=
  if bytes_read > 0 then
    if bytes_read.toNat < buffer.length then
      let buffer := buffer.set bytes_read.toNat (Char.ofNat 0)
      (Outcome.ret [LuaValue.string (String.mk (buffer.take bytes_read.toNat))],
        w.log OsCall.free)
    else (Outcome.undefined, w)
  else (Outcome.ret [LuaValue.string ""], w.log OsCall.free)

/-- POSIX branch of `l_read_from_process`.  `mallocOk` tells whether `malloc`
returned a buffer, `fill` is the indeterminate content of fresh memory. -/
def l_read_from_process_posix (handle : Int) (arg2 : Option Int) (mallocOk : Bool)
    (fill : Char) (st : PipeState) (w : World) : Outcome × World :=
  let max_bytes := max_bytes_arg arg2
  match scratchSize max_bytes with
  | none => (Outcome.undefined, w)
  | some size =>
    let w1 := w.log (OsCall.malloc size)
    if mallocOk = false then (allocFailed, w1)
    else
      let buffer := List.replicate size fill
      let count := posixReadCount max_bytes
      let w2 := w1.log (OsCall.read (toInt32 handle) count)
      match os_read st count with
      | none => (Outcome.noReturn, w2)
      | some (ret, data) =>
        if data.length > buffer.length then (Outcome.undefined, w2)
        else pushResult (data ++ buffer.drop data.length) (toInt32 ret) w2

/-- What the OS answers during the Windows branch of `l_read_from_process`:
whether `PeekNamedPipe` succeeds, the bytes waiting in the pipe, and whether
`ReadFile` succeeds. -/
structure WinPipeOs where
  peekOk : Bool
  pending : List Char
  readOk : Bool
  deriving DecidableEq, Repr

/-- Windows branch of `l_read_from_process`. -/
def l_read_from_process_win (handle : Int) (arg2 : Option Int) (mallocOk : Bool)
    (fill : Char) (o : WinPipeOs) (w : World) : Outcome × World :=
  let max_bytes := max_bytes_arg arg2
  match scratchSize max_bytes with
  | none => (Outcome.undefined, w)
  | some size =>
    let w1 := w.log (OsCall.malloc size)
    if mallocOk = false then (allocFailed, w1)
    else
      let buffer := List.replicate size fill
      let w2 := w1.log (OsCall.PeekNamedPipe handle)
      if o.peekOk then
        let available := toDWORD o.pending.length
        if available > 0 then
          let available := winReadCount available max_bytes
          let w3 := w2.log (OsCall.ReadFile handle available)
          let data := if o.readOk then o.pending.take available else []
          if data.length > buffer.length then (Outcome.undefined, w3)
          else pushResult (data ++ buffer.drop data.length) (toInt32 data.length) w3
        else pushResult buffer 0 w2
      else pushResult buffer 0 w2

/-- Whether a trace contains an OS read that can suspend the caller: the POSIX
`read` (the descriptors come from `pipe` and are never made non-blocking). -/
def issuesBlockingRead (t : List OsCall) : Bool :=
  t.any (fun c => match c with
    | OsCall.read _ _ => true
    | _ => false)

/-- Whether a trace waits for or reaps a child. -/
def waitsOrReaps (t : List OsCall) : Bool :=
  t.any (fun c => match c with
    | OsCall.waitpid _ => true
    | OsCall.WaitForSingleObject _ => true
    | OsCall.GetExitCodeProcess _ => true
    | _ => false)

/-- A world used in the examples: the three standard descriptors open. -/
def w0 : World := ⟨[0, 1, 2], []⟩

/-- The OS guarantee for newly created endpoints: they are pairwise distinct
and none of them was open before. -/
@[reducible]
def Fresh (w : World) (ends : List Int) : Prop :=
  ends.Nodup ∧ ∀ e ∈ ends, e ∉ w.openEnds

/-- Whether an outcome is the return of a single table (a process record). -/
def isRecord : Outcome → Bool
  | Outcome.ret [LuaValue.table _] => true
  | _ => false

/-- The field names of the table an outcome returns (empty when the outcome is
not the return of one table). -/
def fieldNamesOf : Outcome → List String
  | Outcome.ret [t] => fieldNames t
  | _ => []

/-- Reading field `k` of the table an outcome returns. -/
def fieldOf : Outcome → String → Option Int
  | Outcome.ret [t], k => getField t k
  | _, _ => none

/-- The bytes a completed `read` stored in the buffer (none while it blocks). -/
def deliveredBytes (st : PipeState) (count : Nat) : List Char :=
  match os_read st count with
  | some (_, data) => data
  | none => []

/-! ## Auxiliary lemmas -/

theorem closedBy_append (s t : List OsCall) : closedBy (s ++ t) = closedBy s ++ closedBy t := by
  induction s with
  | nil => rfl
  | cons c s ih => cases c <;> simp [closedBy, ih]

theorem mem_openEnds_os_close (w : World) (fd e : Int) :
    e ∈ (os_close w fd).openEnds ↔ e ∈ w.openEnds ∧ e ≠ fd := by
  simp [os_close]

theorem mem_openEnds_os_CloseHandle (w : World) (h e : Int) :
    e ∈ (os_CloseHandle w h).openEnds ↔ e ∈ w.openEnds ∧ e ≠ h := by
  simp [os_CloseHandle]

/-! ## spawn: failure paths -/

/-- C1, evaluated where the code leaks.  POSIX: when the second (or third)
`pipe` fails, spawn returns `(nil, "Failed to create pipes")` while the
descriptors 3 and 4 (and 5 and 6) created by the earlier calls are still open.
Windows: when `CreateProcessA` fails, spawn returns
`(nil, "Failed to create process")` with all six pipe handles still open.
In each case the open set after the call differs from the one before. -/
theorem spawn_failure_leaves_endpoints_open :
    l_spawn_process_posix "true" ⟨some (3, 4), none, none, 1⟩ w0
        = (failPipes, ⟨[4, 3, 0, 1, 2], [OsCall.pipe, OsCall.pipe]⟩)
    ∧ l_spawn_process_posix "true" ⟨some (3, 4), some (5, 6), none, 1⟩ w0
        = (failPipes, ⟨[6, 5, 4, 3, 0, 1, 2], [OsCall.pipe, OsCall.pipe, OsCall.pipe]⟩)
    ∧ l_spawn_process_win "nosuch.exe"
          ⟨some (3, 4), some (5, 6), some (7, 8), (0, 0), (0, 0), (0, 0), none⟩ w0
        = (failCreateProcess, ⟨[8, 7, 6, 5, 4, 3, 0, 1, 2],
            [OsCall.CreatePipe, OsCall.CreatePipe, OsCall.CreatePipe,
              OsCall.CreateProcessA "nosuch.exe"]⟩)
    ∧ (4 : Int) ∉ w0.openEnds := by
  refine ⟨rfl, rfl, rfl, ?_⟩
  decide

/-- The POSIX paths that do clean up: when the first `pipe` fails nothing was
created, and when `fork` fails all six descriptors are closed again, so the
open set is what it was before the call. -/
theorem posix_spawn_first_pipe_or_fork_failure_no_leak (command : String)
    (p2 p3 : Option (Int × Int)) (a b c : Int × Int) (pid : Int) (w : World)
    (hpid : pid < 0) (hfresh : Fresh w [a.1, a.2, b.1, b.2, c.1, c.2]) :
    (l_spawn_process_posix command ⟨none, p2, p3, pid⟩ w).1 = failPipes
    ∧ (l_spawn_process_posix command ⟨none, p2, p3, pid⟩ w).2.openEnds = w.openEnds
    ∧ (l_spawn_process_posix command ⟨some a, some b, some c, pid⟩ w).1 = failFork
    ∧ ∀ e, e ∈ (l_spawn_process_posix command ⟨some a, some b, some c, pid⟩ w).2.openEnds
        ↔ e ∈ w.openEnds := by
  obtain ⟨hnd, hnew⟩ := hfresh
  have h0 : pid ≠ 0 := by omega
  have h1 : ¬ pid > 0 := by omega
  refine ⟨rfl, rfl, ?_, ?_⟩
  · simp [l_spawn_process_posix, h0, h1]
  · intro e
    simp only [l_spawn_process_posix, h0, h1, if_false, mem_openEnds_os_close]
    simp only [os_pipe, World.log, List.mem_cons]
    simp only [List.mem_cons, List.not_mem_nil, or_false, forall_eq_or_imp, forall_eq] at hnew
    constructor
    · rintro ⟨⟨⟨⟨⟨⟨h, _⟩, _⟩, _⟩, _⟩, _⟩, _⟩
      tauto
    · intro h
      have ne : ∀ x, x ∉ w.openEnds → e ≠ x := fun x hx hex => hx (hex ▸ h)
      have := ne _ hnew.1
      have := ne _ hnew.2.1
      have := ne _ hnew.2.2.1
      have := ne _ hnew.2.2.2.1
      have := ne _ hnew.2.2.2.2.1
      have := ne _ hnew.2.2.2.2.2
      tauto

/-- C2, evaluated where the code departs from it.  Windows: the first
`CreatePipe` fails (its two handle variables keep their indeterminate content,
here `-1`), `CreateProcessA` succeeds, and spawn returns a process record
instead of a `(nil, message)` pair.  The POSIX variant, on the same answers
from `pipe`, returns `(nil, "Failed to create pipes")`. -/
theorem win_spawn_returns_record_after_failed_pipe :
    (l_spawn_process_win "cmd.exe"
        ⟨none, some (5, 6), some (7, 8), (-1, -1), (0, 0), (0, 0), some 44⟩ w0).1
      = Outcome.ret [LuaValue.table [("handle", 44), ("stdin", -1), ("stdout", 5), ("stderr", 7)]]
    ∧ (l_spawn_process_posix "cmd.exe" ⟨none, some (5, 6), some (7, 8), 44⟩ w0).1
      = Outcome.ret [LuaValue.nil, LuaValue.string "Failed to create pipes"] := by
  exact ⟨rfl, rfl⟩

/-- The POSIX half of C2 holds: in the parent (`fork` did not return `0`) a
record is returned exactly when the three `pipe` calls and `fork` succeeded; a
failed `pipe` gives the pipe message, a failed `fork` the fork message, and the
two messages differ. -/
theorem posix_spawn_record_iff (command : String) (o : PosixSpawnOs) (w : World)
    (hparent : o.forkRet ≠ 0) :
    (isRecord (l_spawn_process_posix command o w).1 = true
      ↔ (o.pipe1.isSome ∧ o.pipe2.isSome ∧ o.pipe3.isSome) ∧ 0 < o.forkRet)
    ∧ (¬ (o.pipe1.isSome ∧ o.pipe2.isSome ∧ o.pipe3.isSome) →
        (l_spawn_process_posix command o w).1 = failPipes)
    ∧ ((o.pipe1.isSome ∧ o.pipe2.isSome ∧ o.pipe3.isSome) ∧ o.forkRet < 0 →
        (l_spawn_process_posix command o w).1 = failFork)
    ∧ failPipes ≠ failFork := by
  obtain ⟨p1, p2, p3, pid⟩ := o
  simp only at hparent
  have hne : failPipes ≠ failFork := by decide
  have hcases : (0 < pid ∧ ¬ pid < 0) ∨ (pid < 0 ∧ ¬ 0 < pid) := by omega
  refine ⟨?_, ?_, ?_, hne⟩
  all_goals
    rcases p1 with _ | a <;> rcases p2 with _ | b <;> rcases p3 with _ | c <;>
      rcases hcases with ⟨h1, h2⟩ | ⟨h1, h2⟩ <;>
      simp [l_spawn_process_posix, isRecord, failPipes, failFork, posixRecord, hparent, h1, h2]

/-! ## spawn: success path -/

/-- C3: on a successful spawn, in both variants, the returned table has the
write end of the stdin pipe under `stdin` and the read ends of the stdout and
stderr pipes under `stdout` and `stderr`; the call closes exactly the three
child-side ends (read end of stdin, write ends of stdout and stderr), in that
order and nothing else; and an endpoint is open afterwards exactly when it was
open before or is one of the three returned ones. -/
theorem spawn_success_closes_child_side_only (command : String) (a b c : Int × Int)
    (pid hProcess : Int) (u1 u2 u3 : Int × Int) (w : World)
    (hpid : 0 < pid) (hfresh : Fresh w [a.1, a.2, b.1, b.2, c.1, c.2]) :
    (∃ t, (l_spawn_process_posix command ⟨some a, some b, some c, pid⟩ w).1 = Outcome.ret [t]
        ∧ getField t "stdin" = some a.2 ∧ getField t "stdout" = some b.1
        ∧ getField t "stderr" = some c.1)
    ∧ closedBy (l_spawn_process_posix command ⟨some a, some b, some c, pid⟩ w).2.trace
        = closedBy w.trace ++ [a.1, b.2, c.2]
    ∧ (∀ e, e ∈ (l_spawn_process_posix command ⟨some a, some b, some c, pid⟩ w).2.openEnds
        ↔ e ∈ w.openEnds ∨ e = a.2 ∨ e = b.1 ∨ e = c.1)
    ∧ (∃ t, (l_spawn_process_win command
          ⟨some a, some b, some c, u1, u2, u3, some hProcess⟩ w).1 = Outcome.ret [t]
        ∧ getField t "stdin" = some a.2 ∧ getField t "stdout" = some b.1
        ∧ getField t "stderr" = some c.1)
    ∧ closedBy (l_spawn_process_win command
          ⟨some a, some b, some c, u1, u2, u3, some hProcess⟩ w).2.trace
        = closedBy w.trace ++ [a.1, b.2, c.2]
    ∧ (∀ e, e ∈ (l_spawn_process_win command
          ⟨some a, some b, some c, u1, u2, u3, some hProcess⟩ w).2.openEnds
        ↔ e ∈ w.openEnds ∨ e = a.2 ∨ e = b.1 ∨ e = c.1) := by
  obtain ⟨hnd, hnew⟩ := hfresh
  have h0 : pid ≠ 0 := by omega
  have h1 : pid > 0 := hpid
  simp only [List.mem_cons, List.not_mem_nil, or_false, forall_eq_or_imp, forall_eq] at hnew
  simp only [List.nodup_cons, List.mem_cons, List.not_mem_nil, or_false, not_or,
    List.nodup_nil, and_true] at hnd
  have key : ∀ e : Int, ((((((e = c.2 ∨ e = c.1 ∨ e = b.2 ∨ e = b.1 ∨ e = a.2 ∨ e = a.1
      ∨ e ∈ w.openEnds) ∧ e ≠ a.1) ∧ e ≠ b.2) ∧ e ≠ c.2))
      ↔ e ∈ w.openEnds ∨ e = a.2 ∨ e = b.1 ∨ e = c.1) := by
    intro e
    constructor
    · rintro ⟨⟨⟨h | h | h | h | h | h | h, h1⟩, h2⟩, h3⟩ <;> tauto
    · rintro (h | h | h | h)
      · have ne : ∀ x, x ∉ w.openEnds → e ≠ x := fun x hx hex => hx (hex ▸ h)
        have := ne _ hnew.1
        have := ne _ hnew.2.2.2.1
        have := ne _ hnew.2.2.2.2.2
        tauto
      · subst h
        have e1 : a.2 ≠ a.1 := fun hh => hnd.1.1 hh.symm
        have e2 : a.2 ≠ b.2 := hnd.2.1.2.1
        have e3 : a.2 ≠ c.2 := hnd.2.1.2.2.2
        tauto
      · subst h
        have e1 : b.1 ≠ a.1 := fun hh => hnd.1.2.1 hh.symm
        have e2 : b.1 ≠ b.2 := hnd.2.2.1.1
        have e3 : b.1 ≠ c.2 := hnd.2.2.1.2.2
        tauto
      · subst h
        have e1 : c.1 ≠ a.1 := fun hh => hnd.1.2.2.2.1 hh.symm
        have e2 : c.1 ≠ b.2 := fun hh => hnd.2.2.2.1.1 hh.symm
        have e3 : c.1 ≠ c.2 := hnd.2.2.2.2.1
        tauto
  refine ⟨⟨posixRecord pid a.2 b.1 c.1, ?_, rfl, rfl, rfl⟩, ?_, ?_,
    ⟨winRecord hProcess a.2 b.1 c.1, ?_, rfl, rfl, rfl⟩, ?_, ?_⟩
  · simp [l_spawn_process_posix, h0, h1]
  · simp [l_spawn_process_posix, h0, h1, os_close, os_pipe, World.log, closedBy_append,
      closedBy]
  · intro e
    simp only [l_spawn_process_posix, h0, h1, if_false, if_true, mem_openEnds_os_close]
    simp only [os_pipe, World.log, List.mem_cons]
    exact key e
  · simp [l_spawn_process_win]
  · simp [l_spawn_process_win, os_CloseHandle, os_CreatePipe, World.log, closedBy_append,
      closedBy]
  · intro e
    simp only [l_spawn_process_win, Option.getD_some, mem_openEnds_os_CloseHandle]
    simp only [os_CreatePipe, World.log, List.mem_cons]
    exact key e

/-- C3 at a concrete spawn: descriptors 3..8 are created next to 0, 1, 2. -/
theorem spawn_success_closes_child_side_only_witness :
    (0 : Int) < 100 ∧ Fresh w0 [3, 4, 5, 6, 7, 8]
    ∧ closedBy (l_spawn_process_posix "cat" ⟨some (3, 4), some (5, 6), some (7, 8), 100⟩ w0).2.trace
        = [3, 6, 8]
    ∧ (l_spawn_process_posix "cat" ⟨some (3, 4), some (5, 6), some (7, 8), 100⟩ w0).2.openEnds
        = [7, 5, 4, 0, 1, 2] :=
  have h := spawn_success_closes_child_side_only "cat" (3, 4) (5, 6) (7, 8) 100 200
    (0, 0) (0, 0) (0, 0) w0 (by decide) (by decide)
  ⟨by decide, by decide, h.2.1, rfl⟩

/-! ## read: the value returned -/

theorem toInt32_of_range (x : Int) (h1 : -2147483648 ≤ x) (h2 : x < 2147483648) : toInt32 x = x := by
  unfold toInt32; omega

theorem scratchSize_ofNat (n : Nat) (h : (n : Int) < 2147483647) : scratchSize n = some (n + 1) := by
  unfold scratchSize INT_MAX toSizeT
  have : ¬ ((n : Int) + 1 > 2147483647) := by omega
  simp only [this, if_false]
  congr 1
  omega

theorem posixReadCount_ofNat (n : Nat) (h : (n : Int) < 2147483647) : posixReadCount n = n := by
  unfold posixReadCount toSizeT
  omega

theorem max_bytes_arg_some (n : Nat) (h : (n : Int) < 2147483647) :
    max_bytes_arg (some (n : Int)) = n := by
  unfold max_bytes_arg
  simp only [Option.getD_some]
  exact toInt32_of_range _ (by omega) (by omega)

theorem toDWORD_ofNat (n : Nat) (h : n < 4294967296) : toDWORD (n : Int) = n := by
  unfold toDWORD
  rw [Int.emod_eq_of_lt (by omega) (by omega)]
  exact Int.toNat_ofNat n
theorem pushResult_store (size : Nat) (fill : Char) (data : List Char) (w : World)
    (hlen : data.length < size) (hsmall : data.length < 2147483648) :
    pushResult (data ++ (List.replicate size fill).drop data.length) (toInt32 (data.length : Nat)) w
      = (Outcome.ret [LuaValue.string (String.mk data)], w.log OsCall.free) := by
  rw [toInt32_of_range _ (by omega) (by omega)]
  unfold pushResult
  by_cases h0 : data = []
  · subst h0
    simp
  · have hpos : 0 < data.length := List.length_pos.mpr h0
    have h1 : ((data.length : Nat) : Int) > 0 := by omega
    have h2 : data.length < (data ++ (List.replicate size fill).drop data.length).length := by
      simp; omega
    simp only [h1, if_true, Int.toNat_ofNat, h2]
    rw [List.set_take, List.take_left, List.set_eq_of_length_le (Nat.le_refl _)]

theorem l_read_from_process_posix_eq (handle : Int) (arg2 : Option Int) (mallocOk : Bool)
    (fill : Char) (st : PipeState) (w : World) (m : Int) (size count : Nat)
    (hm : max_bytes_arg arg2 = m) (hs : scratchSize m = some size)
    (hc : posixReadCount m = count) :
    l_read_from_process_posix handle arg2 mallocOk fill st w =
      if mallocOk = false then (allocFailed, w.log (OsCall.malloc size))
      else
        match os_read st count with
        | none => (Outcome.noReturn,
            (w.log (OsCall.malloc size)).log (OsCall.read (toInt32 handle) count))
        | some (ret, data) =>
          if data.length > size then (Outcome.undefined,
            (w.log (OsCall.malloc size)).log (OsCall.read (toInt32 handle) count))
          else pushResult (data ++ (List.replicate size fill).drop data.length) (toInt32 ret)
            ((w.log (OsCall.malloc size)).log (OsCall.read (toInt32 handle) count)) := by
  unfold l_read_from_process_posix
  simp only [hm, hs, hc, List.length_replicate]

theorem posix_read_value (handle : Int) (n : Nat) (fill : Char) (w : World) (st : PipeState)
    (hlo : 1 ≤ n) (hhi : (n : Int) < 2147483647)
    (hcompletes : os_read st n ≠ none) :
    l_read_from_process_posix handle (some (n : Int)) true fill st w =
      (Outcome.ret [LuaValue.string (String.mk (deliveredBytes st n))],
       ((w.log (OsCall.malloc (n + 1))).log (OsCall.read (toInt32 handle) n)).log OsCall.free) := by
  rw [l_read_from_process_posix_eq handle _ true fill st w n (n + 1) n
    (max_bytes_arg_some n hhi) (scratchSize_ofNat n hhi) (posixReadCount_ofNat n hhi)]
  have hn : n ≠ 0 := by omega
  have hss : ¬ n > SSIZE_MAX := by unfold SSIZE_MAX; omega
  have hm1 : toInt32 (-1) = -1 := by decide
  have hz : toInt32 0 = 0 := by decide
  cases st with
  | failing =>
    simp [os_read, pushResult, hm1, deliveredBytes]
  | buffered data wo =>
    by_cases hd : data = []
    · subst hd
      cases wo with
      | true => simp [os_read, hn, hss] at hcompletes
      | false => simp [os_read, hn, hss, pushResult, hz, deliveredBytes]
    · have hl : (data.take n).length ≤ n := by simp
      have := pushResult_store (n + 1) fill (data.take n)
        ((w.log (OsCall.malloc (n + 1))).log (OsCall.read (toInt32 handle) n)) (by omega) (by omega)
      have hgt : ¬ (data.take n).length > n + 1 := by omega
      simp only [os_read, hn, hss, hd, if_false, hgt, Bool.true_eq_false, deliveredBytes]
      rw [this]

theorem pushResult_zero (buffer : List Char) (w : World) :
    pushResult buffer 0 w = (Outcome.ret [LuaValue.string ""], w.log OsCall.free) := by
  simp [pushResult]

theorem l_read_from_process_win_eq (handle : Int) (arg2 : Option Int) (mallocOk : Bool)
    (fill : Char) (o : WinPipeOs) (w : World) (m : Int) (size : Nat)
    (hm : max_bytes_arg arg2 = m) (hs : scratchSize m = some size) :
    l_read_from_process_win handle arg2 mallocOk fill o w =
      if mallocOk = false then (allocFailed, w.log (OsCall.malloc size))
      else if o.peekOk = true ∧ toDWORD o.pending.length > 0 then
        if (if o.readOk then
              o.pending.take (winReadCount (toDWORD o.pending.length) m) else []).length > size
        then (Outcome.undefined,
          ((w.log (OsCall.malloc size)).log (OsCall.PeekNamedPipe handle)).log
            (OsCall.ReadFile handle (winReadCount (toDWORD o.pending.length) m)))
        else pushResult
          ((if o.readOk then
              o.pending.take (winReadCount (toDWORD o.pending.length) m) else [])
            ++ (List.replicate size fill).drop (if o.readOk then
              o.pending.take (winReadCount (toDWORD o.pending.length) m) else []).length)
          (toInt32 ((if o.readOk then
              o.pending.take (winReadCount (toDWORD o.pending.length) m) else []).length : Nat))
          (((w.log (OsCall.malloc size)).log (OsCall.PeekNamedPipe handle)).log
            (OsCall.ReadFile handle (winReadCount (toDWORD o.pending.length) m)))
      else pushResult (List.replicate size fill) 0
        ((w.log (OsCall.malloc size)).log (OsCall.PeekNamedPipe handle)) := by
  unfold l_read_from_process_win
  simp only [hm, hs, List.length_replicate]
  by_cases h1 : o.peekOk = true <;> by_cases h2 : toDWORD o.pending.length > 0 <;>
    simp [h1, h2]

theorem win_read_value (handle : Int) (n : Nat) (fill : Char) (w : World) (o : WinPipeOs)
    (hlo : 1 ≤ n) (hhi : (n : Int) < 2147483647) (hpending : o.pending.length < 4294967296) :
    ∃ w1, l_read_from_process_win handle (some (n : Int)) true fill o w =
      (Outcome.ret [LuaValue.string
        (String.mk (if o.peekOk = true ∧ o.readOk = true then o.pending.take n else []))], w1) := by
  rw [l_read_from_process_win_eq handle _ true fill o w n (n + 1)
    (max_bytes_arg_some n hhi) (scratchSize_ofNat n hhi)]
  have hdw : toDWORD (o.pending.length : Nat) = o.pending.length := toDWORD_ofNat _ hpending
  have hdn : toDWORD (n : Int) = n := toDWORD_ofNat _ (by omega)
  simp only [hdw, Bool.true_eq_false, if_false]
  by_cases hpk : o.peekOk = true
  · by_cases hpos : o.pending.length > 0
    · by_cases hrd : o.readOk = true
      · have hcount : (o.pending.take (winReadCount o.pending.length n)) = o.pending.take n := by
          unfold winReadCount
          rw [hdn]
          by_cases hc : o.pending.length > n
          · simp [hc]
          · simp only [hc, if_false]
            rw [List.take_of_length_le (Nat.le_refl _), List.take_of_length_le (by omega)]
        have hl : (o.pending.take n).length ≤ n := by simp
        have hgt : ¬ (o.pending.take n).length > n + 1 := by omega
        simp only [hpk, hpos, hrd, and_self, if_true, hcount, hgt, if_false]
        exact ⟨_, pushResult_store (n + 1) fill _ _ (by omega) (by omega)⟩
      · have hz : toInt32 0 = 0 := by decide
        simp [hpk, hpos, hrd, hz, pushResult_zero]
    · have hnil : o.pending = [] := List.length_eq_zero.mp (by omega)
      simp [hpk, hnil, pushResult_zero]
  · simp [hpk, pushResult_zero]

/-- The part of the read contract that holds: for `1 ≤ max_bytes < 2^31 - 1`
and a successful allocation, whenever the OS call completes, read returns
exactly one string of at most `max_bytes` characters: the bytes the OS
delivered when it delivered some (then the length is at least 1), the empty
string when it delivered none or failed.  Omitting `max_bytes` is the same as
passing 4096.  (On Windows `pending` is what the pipe holds, whose size
`PeekNamedPipe` reports in a `DWORD`.) -/
theorem read_returns_delivered_bytes (handle max_bytes : Int) (fill : Char) (w : World)
    (st : PipeState) (o : WinPipeOs)
    (hlo : 1 ≤ max_bytes) (hhi : max_bytes < 2147483647)
    (hcompletes : os_read st (posixReadCount max_bytes) ≠ none)
    (hpending : o.pending.length < 4294967296) :
    (∃ s, (l_read_from_process_posix handle (some max_bytes) true fill st w).1
          = Outcome.ret [LuaValue.string s]
        ∧ (s.length : Int) ≤ max_bytes
        ∧ (∀ data wo, st = PipeState.buffered data wo → data ≠ [] →
            s = String.mk (data.take max_bytes.toNat) ∧ 1 ≤ s.length)
        ∧ (st = PipeState.failing ∨ (∃ wo, st = PipeState.buffered [] wo) → s = ""))
    ∧ (∃ s, (l_read_from_process_win handle (some max_bytes) true fill o w).1
          = Outcome.ret [LuaValue.string s]
        ∧ (s.length : Int) ≤ max_bytes
        ∧ (o.peekOk = true → o.readOk = true → o.pending ≠ [] →
            s = String.mk (o.pending.take max_bytes.toNat) ∧ 1 ≤ s.length)
        ∧ (o.peekOk = false ∨ o.readOk = false ∨ o.pending = [] → s = ""))
    ∧ (∀ m, l_read_from_process_posix handle none m fill st w
        = l_read_from_process_posix handle (some 4096) m fill st w)
    ∧ (∀ m, l_read_from_process_win handle none m fill o w
        = l_read_from_process_win handle (some 4096) m fill o w) := by
  obtain ⟨n, rfl⟩ := Int.eq_ofNat_of_zero_le (show 0 ≤ max_bytes by omega)
  have hn1 : 1 ≤ n := by omega
  have hn0 : n ≠ 0 := by omega
  have hss : ¬ n > SSIZE_MAX := by unfold SSIZE_MAX; omega
  have hc : os_read st n ≠ none := by rwa [posixReadCount_ofNat n hhi] at hcompletes
  have hP := posix_read_value handle n fill w st hn1 hhi hc
  obtain ⟨w1, hW⟩ := win_read_value handle n fill w o hn1 hhi hpending
  have hlen : ∀ l : List Char, l ≠ [] → 1 ≤ (l.take n).length := by
    intro l hl
    have : 0 < l.length := List.length_pos.mpr hl
    simp only [List.length_take]
    omega
  refine ⟨⟨_, congrArg Prod.fst hP, ?_, ?_, ?_⟩, ⟨_, congrArg Prod.fst hW, ?_, ?_, ?_⟩,
    fun _ => rfl, fun _ => rfl⟩
  · rcases st with _ | ⟨data, wo⟩
    · simp [String.length, deliveredBytes, os_read]
    · by_cases hd : data = []
      · cases wo <;> simp [String.length, deliveredBytes, os_read, hd, hn0, hss]
      · simp [String.length, deliveredBytes, os_read, hd, hn0, hss]
  · intro data wo hst hdata
    subst hst
    have hs : deliveredBytes (PipeState.buffered data wo) n = data.take n := by
      simp [deliveredBytes, os_read, hdata, hn0, hss]
    rw [hs]
    exact ⟨by simp, by simpa [String.length] using hlen data hdata⟩
  · rintro (h | ⟨wo, h⟩) <;> subst h
    · rfl
    · cases wo <;> simp [deliveredBytes, os_read, hn0, hss]
  · split <;> simp [String.length]
  · intro h1 h2 h3
    exact ⟨by simp [h1, h2], by simpa [String.length, h1, h2] using hlen _ h3⟩
  · rintro (h | h | h) <;> simp [h]

/-- The short read bound at `read(stdout, 4)` on a pipe holding 100 bytes: at
most 4 come back. -/
theorem read_returns_delivered_bytes_witness :
    (l_read_from_process_posix 5 (some 4) true 'z'
        (PipeState.buffered (List.replicate 100 'a') true) w0).1
      = Outcome.ret [LuaValue.string "aaaa"]
    ∧ ∃ s, (l_read_from_process_win 5 (some 4) true 'z'
          ⟨true, List.replicate 100 'a', true⟩ w0).1 = Outcome.ret [LuaValue.string s]
        ∧ (s.length : Int) ≤ 4 :=
  have h := read_returns_delivered_bytes 5 4 'z' w0
    (PipeState.buffered (List.replicate 100 'a') true) ⟨true, List.replicate 100 'a', true⟩
    (by decide) (by decide) (by decide) (by decide)
  ⟨rfl, h.2.1.imp fun _ hs => ⟨hs.1, hs.2.1⟩⟩
/-- C5, evaluated where the code departs from it.  POSIX `read(5, 4)` with a
successful allocation on a pipe that holds nothing while the child still has
the write end open: the OS delivers nothing, and instead of the empty string
the call returns no value at all, because the blocking `read` does not come
back; the same with `max_bytes` omitted.  The Windows branch returns the empty
string on the same pipe. -/
theorem posix_read_returns_no_string_when_os_delivers_nothing :
    l_read_from_process_posix 5 (some 4) true 'z' (PipeState.buffered [] true) w0
      = (Outcome.noReturn, ⟨[0, 1, 2], [OsCall.malloc 5, OsCall.read 5 4]⟩)
    ∧ (¬ ∃ s, (l_read_from_process_posix 5 (some 4) true 'z'
          (PipeState.buffered [] true) w0).1 = Outcome.ret [LuaValue.string s])
    ∧ (l_read_from_process_posix 5 none true 'z' (PipeState.buffered [] true) w0).1
      = Outcome.noReturn
    ∧ (l_read_from_process_win 5 (some 4) true 'z' ⟨true, [], true⟩ w0).1
      = Outcome.ret [LuaValue.string ""] := by
  refine ⟨rfl, ?_, rfl, rfl⟩
  rintro ⟨s, hs⟩
  have h : (l_read_from_process_posix 5 (some 4) true 'z'
      (PipeState.buffered [] true) w0).1 = Outcome.noReturn := rfl
  rw [h] at hs
  cases hs

/-! ## read: blocking and buffer bounds -/

/-- C4, evaluated on the POSIX branch with nothing buffered and the writer
still attached: after `malloc(4097)` the code issues `read(5, buffer, 4096)`
on the blocking descriptor without any availability check, and the call does
not return.  The Windows branch, on the same empty pipe, peeks, skips
`ReadFile` and returns the empty string. -/
theorem posix_read_blocks_when_nothing_is_buffered :
    l_read_from_process_posix 5 (some 4096) true 'z' (PipeState.buffered [] true) w0
      = (Outcome.noReturn, ⟨[0, 1, 2], [OsCall.malloc 4097, OsCall.read 5 4096]⟩)
    ∧ issuesBlockingRead
        (l_read_from_process_posix 5 (some 4096) true 'z' (PipeState.buffered [] true) w0).2.trace
      = true
    ∧ l_read_from_process_win 5 (some 4096) true 'z' ⟨true, [], true⟩ w0
      = (Outcome.ret [LuaValue.string ""],
          ⟨[0, 1, 2], [OsCall.malloc 4097, OsCall.PeekNamedPipe 5, OsCall.free]⟩) := by
  exact ⟨rfl, rfl, rfl⟩

/-- C10, evaluated where the code is unsafe.  `max_bytes = 2147483647`:
`max_bytes + 1` overflows `int`.  `max_bytes = -1` (also what `4294967295`
becomes after the cast to `int`): `malloc(0)` is followed on POSIX by a `read`
asking for `2^64 - 1` bytes and on Windows by a `ReadFile` asking for all the
pending bytes, both more than the zero bytes allocated.  On POSIX the kernel
rejects that count and the empty string is returned; on Windows, with one byte
pending, the store lands outside the buffer. -/
theorem read_buffer_bounds_fail_outside_positive_range :
    (max_bytes_arg (some 2147483647) = 2147483647 ∧ scratchSize 2147483647 = none)
    ∧ max_bytes_arg (some 4294967295) = -1
    ∧ (max_bytes_arg (some (-1)) = -1 ∧ scratchSize (-1) = some 0
        ∧ posixReadCount (-1) = 18446744073709551615 ∧ winReadCount 1 (-1) = 1)
    ∧ l_read_from_process_posix 5 (some (-1)) true 'z' (PipeState.buffered ['a'] false) w0
      = (Outcome.ret [LuaValue.string ""],
          ⟨[0, 1, 2], [OsCall.malloc 0, OsCall.read 5 18446744073709551615, OsCall.free]⟩)
    ∧ l_read_from_process_win 5 (some (-1)) true 'z' ⟨true, ['a'], true⟩ w0
      = (Outcome.undefined,
          ⟨[0, 1, 2], [OsCall.malloc 0, OsCall.PeekNamedPipe 5, OsCall.ReadFile 5 1]⟩) := by
  exact ⟨⟨rfl, rfl⟩, rfl, ⟨rfl, rfl, rfl, rfl⟩, rfl, rfl⟩

/-- Inside the range `0 ≤ max_bytes < INT_MAX` the three bounds of C10 hold:
the size is `max_bytes + 1` without overflow, the count passed to `read` or
`ReadFile` is at most `max_bytes`, hence below the size. -/
theorem read_buffer_bounds_in_range (max_bytes : Int) (available : Nat)
    (hlo : 0 ≤ max_bytes) (hhi : max_bytes < INT_MAX) :
    ∃ size, scratchSize max_bytes = some size ∧ (size : Int) = max_bytes + 1
      ∧ posixReadCount max_bytes < size ∧ winReadCount available max_bytes < size := by
  obtain ⟨n, rfl⟩ := Int.eq_ofNat_of_zero_le hlo
  have hhi2 : (n : Int) < 2147483647 := hhi
  refine ⟨n + 1, scratchSize_ofNat n hhi2, by simp, ?_, ?_⟩
  · rw [posixReadCount_ofNat n hhi2]; omega
  · unfold winReadCount
    rw [toDWORD_ofNat n (by omega)]
    split <;> omega

/-! ## write -/

/-- C6, evaluated where the code departs from it: `write` on a broken pipe
(`write` returns `-1`, `WriteFile` returns zero) and a short write (2 of 4
bytes accepted) both return `true`; indeed the value returned never depends on
what the OS reported. -/
theorem write_returns_true_whatever_the_os_reports :
    (l_write_to_process_posix 4 "ping" (-1) w0).1 = Outcome.ret [LuaValue.boolean true]
    ∧ (l_write_to_process_posix 4 "ping" 2 w0).1 = Outcome.ret [LuaValue.boolean true]
    ∧ (l_write_to_process_win 4 "ping" false 0 w0).1 = Outcome.ret [LuaValue.boolean true]
    ∧ (l_write_to_process_win 4 "ping" true 2 w0).1 = Outcome.ret [LuaValue.boolean true]
    ∧ (∀ handle data written w,
        (l_write_to_process_posix handle data written w).1 = Outcome.ret [LuaValue.boolean true])
    ∧ (∀ handle data ok bytes_written w,
        (l_write_to_process_win handle data ok bytes_written w).1
          = Outcome.ret [LuaValue.boolean true]) :=
  ⟨rfl, rfl, rfl, rfl, fun _ _ _ _ => rfl, fun _ _ _ _ _ => rfl⟩

/-! ## terminate -/

/-- C8, evaluated where the code departs from it: on Windows a rejected
`TerminateProcess` (return value zero) still makes terminate return `true`.
On POSIX a rejected `kill` (return value `-1`) makes it return `false`. -/
theorem win_terminate_returns_true_when_rejected :
    l_terminate_process_win 44 false w0
      = (Outcome.ret [LuaValue.boolean true], ⟨[0, 1, 2], [OsCall.TerminateProcess 44 1]⟩)
    ∧ l_terminate_process_posix 44 (-1) w0
      = (Outcome.ret [LuaValue.boolean false], ⟨[0, 1, 2], [OsCall.kill 44 15]⟩) := by
  exact ⟨rfl, rfl⟩

/-- The POSIX half of C8, and the part of it that holds on both platforms:
POSIX terminate returns `true` exactly when `kill` returned `0`; neither
variant issues a wait: the only call added to the trace is the kill or
`TerminateProcess` request. -/
theorem terminate_posix_reports_kill_result (handle result : Int) (accepted : Bool) (w : World) :
    (∃ b, (l_terminate_process_posix handle result w).1 = Outcome.ret [LuaValue.boolean b]
        ∧ (b = true ↔ result = 0))
    ∧ (l_terminate_process_posix handle result w).2.trace
        = w.trace ++ [OsCall.kill (toInt32 handle) SIGTERM]
    ∧ (l_terminate_process_win handle accepted w).2.trace
        = w.trace ++ [OsCall.TerminateProcess handle 1]
    ∧ waitsOrReaps [OsCall.kill (toInt32 handle) SIGTERM] = false
    ∧ waitsOrReaps [OsCall.TerminateProcess handle 1] = false := by
  refine ⟨⟨result == 0, rfl, ?_⟩, rfl, rfl, rfl, rfl⟩
  simp

/-! ## wait -/

theorem WEXITSTATUS_range (status : Int) : 0 ≤ WEXITSTATUS status ∧ WEXITSTATUS status ≤ 255 := by
  unfold WEXITSTATUS
  have h1 : toDWORD status &&& 0xff00 ≤ 0xff00 := Nat.and_le_right
  have h2 : (toDWORD status &&& 0xff00) >>> 8 ≤ 255 := by
    rw [Nat.shiftRight_eq_div_pow]
    omega
  constructor
  · exact Int.ofNat_nonneg _
  · exact_mod_cast h2

set_option maxRecDepth 100000 in
theorem exit_status_decodes : ∀ c : Nat, c < 256 →
    WIFEXITED (statusOfExit c) = true ∧ WEXITSTATUS (statusOfExit c) = c := by
  decide

set_option maxRecDepth 100000 in
theorem signal_status_decodes : ∀ sig : Nat, sig < 128 → 1 ≤ sig → ∀ core : Bool,
    WIFEXITED (statusOfSignal sig core) = false := by
  decide

/-- C7: POSIX wait returns exactly one integer whatever the status word is:
the exit status, a value in `0..255`, when `WIFEXITED(status)` holds, and `-1`
otherwise.  A child that called `exit(code)` with `code ≤ 255` gives `code`
(so `exit(7)` gives 7), a child killed by a signal gives `-1`. -/
theorem wait_posix_returns_exit_status_or_minus_one (handle status : Int) (w : World) :
    (∃ c : Int, (l_wait_process_posix handle status w).1 = Outcome.ret [LuaValue.integer c]
      ∧ (WIFEXITED status = true → c = WEXITSTATUS status ∧ 0 ≤ c ∧ c ≤ 255)
      ∧ (WIFEXITED status = false → c = -1))
    ∧ (∀ code : Nat, code ≤ 255 →
        (l_wait_process_posix handle (statusOfExit code) w).1
          = Outcome.ret [LuaValue.integer code])
    ∧ (∀ (sig : Nat) (core : Bool), 1 ≤ sig → sig ≤ 127 →
        (l_wait_process_posix handle (statusOfSignal sig core) w).1
          = Outcome.ret [LuaValue.integer (-1)])
    ∧ (l_wait_process_posix handle (statusOfExit 7) w).1 = Outcome.ret [LuaValue.integer 7] := by
  have hexit : ∀ code : Nat, code ≤ 255 →
      (l_wait_process_posix handle (statusOfExit code) w).1
        = Outcome.ret [LuaValue.integer code] := by
    intro code hcode
    obtain ⟨h1, h2⟩ := exit_status_decodes code (by omega)
    simp only [l_wait_process_posix, h1, if_true, h2]
  refine ⟨?_, hexit, ?_, hexit 7 (by decide)⟩
  · by_cases h : WIFEXITED status = true
    · refine ⟨WEXITSTATUS status, by simp only [l_wait_process_posix, h, if_true], ?_, ?_⟩
      · intro _
        exact ⟨rfl, WEXITSTATUS_range status⟩
      · intro h2
        rw [h] at h2
        cases h2
    · have hf : WIFEXITED status = false := by simpa using h
      refine ⟨-1, ?_, ?_, fun _ => rfl⟩
      · simp only [l_wait_process_posix, hf]
        rfl
      · intro h2
        exact absurd h2 h
  · intro sig core h1 h2
    have hf := signal_status_decodes sig (by omega) h1 core
    simp only [l_wait_process_posix, hf]
    rfl

/-- C7 at `exit(7)` and at a child killed by `SIGKILL`. -/
theorem wait_posix_returns_exit_status_or_minus_one_witness :
    (7 : Nat) ≤ 255 ∧ (1 : Nat) ≤ 9 ∧ (9 : Nat) ≤ 127
    ∧ (l_wait_process_posix 1234 (statusOfExit 7) w0).1 = Outcome.ret [LuaValue.integer 7]
    ∧ (l_wait_process_posix 1234 (statusOfSignal 9 false) w0).1
        = Outcome.ret [LuaValue.integer (-1)] :=
  have h := wait_posix_returns_exit_status_or_minus_one 1234 0 w0
  ⟨by decide, by decide, by decide, h.2.1 7 (by decide),
    h.2.2.1 9 false (by decide) (by decide)⟩

/-! ## The record of the two variants -/

/-- C9 as stated fails: after a successful spawn the POSIX record has the
field `pid` and no field `handle`, the Windows record has `handle` and no
`pid`, so the two sets of field names differ and no single name reads the
process handle on both platforms. -/
theorem spawn_record_field_names_differ :
    ¬ (∀ k, k ∈ fieldNamesOf
            (l_spawn_process_posix "cat" ⟨some (3, 4), some (5, 6), some (7, 8), 100⟩ w0).1
          ↔ k ∈ fieldNamesOf (l_spawn_process_win "cat"
              ⟨some (3, 4), some (5, 6), some (7, 8), (0, 0), (0, 0), (0, 0), some 100⟩ w0).1)
    ∧ fieldOf (l_spawn_process_posix "cat"
          ⟨some (3, 4), some (5, 6), some (7, 8), 100⟩ w0).1 "handle" = none
    ∧ fieldOf (l_spawn_process_win "cat"
          ⟨some (3, 4), some (5, 6), some (7, 8), (0, 0), (0, 0), (0, 0), some 100⟩ w0).1 "pid"
        = none := by
  refine ⟨?_, rfl, rfl⟩
  intro h
  have h1 := (h "pid").mp (by decide)
  revert h1
  decide

/-- C9 amended: after a successful spawn both variants return a table of four
fields; `stdin`, `stdout`, `stderr` are named alike, the process field is
`pid` on POSIX and `handle` on Windows, and the value stored under that name
is the one the platform's own wait and terminate hand to the OS. -/
theorem spawn_record_fields_per_platform (command : String) (a b c : Int × Int)
    (pid hProcess status result : Int) (exit_code : Nat) (accepted : Bool)
    (u1 u2 u3 : Int × Int) (w w1 : World)
    (hpid : 0 < pid) (hpid_t : pid < 2147483648) :
    fieldNamesOf (l_spawn_process_posix command ⟨some a, some b, some c, pid⟩ w).1
        = ["pid", "stdin", "stdout", "stderr"]
    ∧ fieldNamesOf (l_spawn_process_win command
          ⟨some a, some b, some c, u1, u2, u3, some hProcess⟩ w).1
        = ["handle", "stdin", "stdout", "stderr"]
    ∧ (∃ v, fieldOf (l_spawn_process_posix command ⟨some a, some b, some c, pid⟩ w).1 "pid"
          = some v
        ∧ (l_wait_process_posix v status w1).2.trace = w1.trace ++ [OsCall.waitpid pid]
        ∧ (l_terminate_process_posix v result w1).2.trace
            = w1.trace ++ [OsCall.kill pid SIGTERM])
    ∧ (∃ v, fieldOf (l_spawn_process_win command
          ⟨some a, some b, some c, u1, u2, u3, some hProcess⟩ w).1 "handle" = some v
        ∧ (l_wait_process_win v exit_code w1).2.trace
            = w1.trace ++ [OsCall.WaitForSingleObject hProcess,
                OsCall.GetExitCodeProcess hProcess]
        ∧ (l_terminate_process_win v accepted w1).2.trace
            = w1.trace ++ [OsCall.TerminateProcess hProcess 1]) := by
  have h0 : pid ≠ 0 := by omega
  have hP : (l_spawn_process_posix command ⟨some a, some b, some c, pid⟩ w).1
      = Outcome.ret [posixRecord pid a.2 b.1 c.1] := by
    simp [l_spawn_process_posix, h0, hpid]
  have hW : (l_spawn_process_win command
      ⟨some a, some b, some c, u1, u2, u3, some hProcess⟩ w).1
      = Outcome.ret [winRecord hProcess a.2 b.1 c.1] := by
    simp [l_spawn_process_win]
  have hcast : toInt32 pid = pid := toInt32_of_range pid (by omega) hpid_t
  rw [hP, hW]
  refine ⟨rfl, rfl, ⟨pid, rfl, ?_, ?_⟩, ⟨hProcess, rfl, ?_, rfl⟩⟩
  · unfold l_wait_process_posix
    rw [hcast]
    split <;> rfl
  · unfold l_terminate_process_posix
    rw [hcast]
    rfl
  · simp [l_wait_process_win, World.log]

/-- C9 amended, at a concrete spawn. -/
theorem spawn_record_fields_per_platform_witness :
    (0 : Int) < 100 ∧ (100 : Int) < 2147483648
    ∧ fieldNamesOf (l_spawn_process_posix "cat"
        ⟨some (3, 4), some (5, 6), some (7, 8), 100⟩ w0).1 = ["pid", "stdin", "stdout", "stderr"] :=
  ⟨by decide, by decide,
    (spawn_record_fields_per_platform "cat" (3, 4) (5, 6) (7, 8) 100 200 0 0 0 true
      (0, 0) (0, 0) (0, 0) w0 w0 (by decide) (by decide)).1⟩

end Luarun
